import Mathlib

/-!
# Verification of the hybrid proof-of-work challenge server

A shallow embedding, in Lean 4, of the core of the `faraway` hybrid
proof-of-work system: the hashcash (CPU-bound) strategy over SHA-256, the
Argon2 (memory-bound) strategy's solution encoding and verification, the
server-side session dispatch and error mapping, and the client-side
challenge decoding and retry loop.  Go byte slices are modelled as
`List Nat` with every element `< 256`, strings as `List Char` (or `String`
where only equality matters), machine integers as `Nat`/`Int` with explicit
reductions modulo `2 ^ w`, and fallible functions as `Except`/`Option`.
The external primitives used by the code (`crypto/sha256`, `encoding/hex`,
`encoding/base64`) are implemented concretely below; the external
`argon2.IDKey` key-derivation function is kept as an abstract function
parameter, since none of the verified properties depend on its internals.
-/

/-! ## Bytes, 32-bit words, and small string helpers -/

/-- Reduce to a 32-bit word, as Go does implicitly on `uint32` arithmetic. -/
def w32 (x : Nat) : Nat := x % 4294967296

/-- Right rotation of a 32-bit word by `n` bits. -/
def rotr32 (n x : Nat) : Nat := w32 (x / 2 ^ n + x % 2 ^ n * 2 ^ (32 - n))

/-- Logical right shift of a 32-bit word by `n` bits. -/
def shr32 (n x : Nat) : Nat := x / 2 ^ n

/-- Bitwise exclusive or on words (Go `^`). -/
def xor32 (x y : Nat) : Nat := Nat.xor x y

/-- Bitwise and on words (Go `&`). -/
def and32 (x y : Nat) : Nat := Nat.land x y

/-- Bitwise complement of a 32-bit word (Go `^x` on `uint32`). -/
def not32 (x : Nat) : Nat := Nat.xor x 4294967295

/-- `startsWith s p` is Go's `strings.HasPrefix(s, p)` on rune lists. -/
def startsWith : List Char → List Char → Bool
  | _, [] => true
  | [], _ :: _ => false
  | c :: cs, p :: ps => c == p && startsWith cs ps

/-- The character bytes of the base-10 rendering of `n`, as produced by Go's
`fmt.Sprintf("%d", n)` for a non-negative integer. -/
def decimalChars (n : Nat) : List Char := Nat.toDigits 10 n

/-- The ASCII bytes of the base-10 rendering of `n`. -/
def decimalBytes (n : Nat) : List Nat := (decimalChars n).map Char.toNat

/-! ## SHA-256 (`crypto/sha256.Sum256`)

A direct implementation of FIPS 180-4 over byte lists, used by the hashcash
strategy.  Words are `Nat`s kept below `2 ^ 32` by `w32`. -/

/-- SHA-256 `Ch` function. -/
def sha2Ch (x y z : Nat) : Nat := xor32 (and32 x y) (and32 (not32 x) z)

/-- SHA-256 `Maj` function. -/
def sha2Maj (x y z : Nat) : Nat := xor32 (xor32 (and32 x y) (and32 x z)) (and32 y z)

/-- SHA-256 big sigma 0. -/
def bsig0 (x : Nat) : Nat := xor32 (xor32 (rotr32 2 x) (rotr32 13 x)) (rotr32 22 x)

/-- SHA-256 big sigma 1. -/
def bsig1 (x : Nat) : Nat := xor32 (xor32 (rotr32 6 x) (rotr32 11 x)) (rotr32 25 x)

/-- SHA-256 small sigma 0. -/
def ssig0 (x : Nat) : Nat := xor32 (xor32 (rotr32 7 x) (rotr32 18 x)) (shr32 3 x)

/-- SHA-256 small sigma 1. -/
def ssig1 (x : Nat) : Nat := xor32 (xor32 (rotr32 17 x) (rotr32 19 x)) (shr32 10 x)

/-- The 64 SHA-256 round constants (decimal). -/
def sha2K : List Nat :=
  [1116352408, 1899447441, 3049323471, 3921009573, 961987163,
   1508970993, 2453635748, 2870763221, 3624381080, 310598401, 607225278,
   1426881987, 1925078388, 2162078206, 2614888103, 3248222580, 3835390401,
   4022224774, 264347078, 604807628, 770255983, 1249150122, 1555081692,
   1996064986, 2554220882, 2821834349, 2952996808, 3210313671, 3336571891,
   3584528711, 113926993, 338241895, 666307205, 773529912, 1294757372,
   1396182291, 1695183700, 1986661051, 2177026350, 2456956037, 2730485921,
   2820302411, 3259730800, 3345764771, 3516065817, 3600352804, 4094571909,
   275423344, 430227734, 506948616, 659060556, 883997877, 958139571,
   1322822218, 1537002063, 1747873779, 1955562222, 2024104815, 2227730452,
   2361852424, 2428436474, 2756734187, 3204031479, 3329325298]

/-- The SHA-256 initial hash state (decimal). -/
def sha2H0 : List Nat :=
  [1779033703, 3144134277, 1013904242, 2773480762,
   1359893119, 2600822924, 528734635, 1541459225]

/-- The 8 big-endian bytes of a 64-bit value. -/
def be64 (n : Nat) : List Nat :=
  [n / 2 ^ 56 % 256, n / 2 ^ 48 % 256, n / 2 ^ 40 % 256, n / 2 ^ 32 % 256,
   n / 2 ^ 24 % 256, n / 2 ^ 16 % 256, n / 2 ^ 8 % 256, n % 256]

/-- The 4 big-endian bytes of a 32-bit word. -/
def be32 (n : Nat) : List Nat := [n / 2 ^ 24 % 256, n / 2 ^ 16 % 256, n / 2 ^ 8 % 256, n % 256]

/-- SHA-256 message padding: `0x80`, zeros to 56 mod 64, then the 64-bit
big-endian bit length. -/
def sha2Pad (msg : List Nat) : List Nat :=
  msg ++ 0x80 :: List.replicate ((64 + 56 - (msg.length + 1) % 64) % 64) 0 ++ be64 (8 * msg.length)

/-- Split a byte list into 64-byte blocks, with a structural fuel argument so
the kernel can evaluate it (the fuel is at least the number of blocks). -/
def sha2ChunksF : Nat → List Nat → List (List Nat)
  | 0, _ => []
  | fuel + 1, l => if l = [] then [] else l.take 64 :: sha2ChunksF fuel (l.drop 64)

/-- Split a byte list into 64-byte blocks. -/
def sha2Chunks (l : List Nat) : List (List Nat) := sha2ChunksF l.length l

/-- Parse a block into big-endian 32-bit words. -/
def beWords : List Nat → List Nat
  | b0 :: b1 :: b2 :: b3 :: rest => (((b0 * 256 + b1) * 256 + b2) * 256 + b3) :: beWords rest
  | _ => []

/-- One extension step of the SHA-256 message schedule: append the next word. -/
def sha2Extend1 (w : List Nat) : List Nat :=
  w ++ [w32 (ssig1 (w.getD (w.length - 2) 0) + w.getD (w.length - 7) 0 +
             ssig0 (w.getD (w.length - 15) 0) + w.getD (w.length - 16) 0)]

/-- Extend the 16 block words to the full 64-entry message schedule. -/
def sha2Schedule : Nat → List Nat → List Nat
  | 0, w => w
  | k + 1, w => sha2Schedule k (sha2Extend1 w)

/-- One SHA-256 compression round on the 8-word working state. -/
def sha2Round (st : List Nat) (wi ki : Nat) : List Nat :=
  match st with
  | [a, b, c, d, e, f, g, h] =>
    let t1 := w32 (h + bsig1 e + sha2Ch e f g + ki + wi)
    let t2 := w32 (bsig0 a + sha2Maj a b c)
    [w32 (t1 + t2), a, b, c, w32 (d + t1), e, f, g]
  | other => other

/-- Process one 64-byte block, updating the 8-word hash state. -/
def sha2Block (hs block : List Nat) : List Nat :=
  let ws := sha2Schedule 48 (beWords block)
  let st := List.foldl (fun s p => sha2Round s (Prod.fst p) (Prod.snd p)) hs (ws.zip sha2K)
  List.zipWith (fun x y => w32 (x + y)) hs st

/-- The SHA-256 state words of a byte message. -/
def sha256Words (msg : List Nat) : List Nat :=
  List.foldl sha2Block sha2H0 (sha2Chunks (sha2Pad msg))

/-- `sha256Bytes msg` is Go's `sha256.Sum256(msg)` as its 32 digest bytes. -/
def sha256Bytes (msg : List Nat) : List Nat := (sha256Words msg).flatMap be32

/-! ## Lowercase hex (`encoding/hex.EncodeToString`) -/

/-- The lowercase hex digit table (`hextable` in `encoding/hex`). -/
def hexTable : List Char := "0123456789abcdef".data

/-- The lowercase hex digit of a nibble. -/
def hexDigit (n : Nat) : Char := hexTable.getD n '0'

/-- `hexEncodeChars bs` is Go's `hex.EncodeToString(bs)`: two lowercase hex
characters per byte, high nibble first. -/
def hexEncodeChars (bs : List Nat) : List Char :=
  bs.flatMap (fun b => [hexDigit (b / 16 % 16), hexDigit (b % 16)])

/-! ## Hashcash strategy (`pkg/pow/hashcash`, CPU-bound search proof) -/

/-- Errors of the hashcash package (`ErrDifficultyRange` etc.). -/
inductive PowErr
  | difficultyRange
  | generateRandom
  | timeout
deriving DecidableEq

/-- `ProofOfWork` encapsulates the hashcash proof-of-work mechanism. -/
structure ProofOfWork where
  difficultyLevel : Nat
deriving DecidableEq

/-- `NewProofOfWork` initializes a `ProofOfWork` with a specified difficulty,
rejecting difficulties outside `[1, 64]` with `ErrDifficultyRange`. -/
def NewProofOfWork (difficulty : Nat) : Except PowErr ProofOfWork :=
  if difficulty < 1 ∨ difficulty > 64 then .error .difficultyRange
  else .ok { difficultyLevel := difficulty }

/-- `Verify` checks whether the lowercase-hex SHA-256 digest of the challenge
bytes followed by the solution bytes has at least `difficultyLevel` leading
`'0'` characters. -/
def ProofOfWork.Verify (pow : ProofOfWork) (challengeBytes solutionBytes : List Nat) : Bool :=
  startsWith (hexEncodeChars (sha256Bytes (challengeBytes ++ solutionBytes)))
    (List.replicate pow.difficultyLevel '0')

/-- `GetDifficulty` returns the configured difficulty level. -/
def ProofOfWork.GetDifficulty (pow : ProofOfWork) : Nat := pow.difficultyLevel

/-- The predicate tested by `computeSolution` for each candidate nonce: the
hex digest of the challenge followed by the decimal text of the nonce starts
with `difficulty` zeros. -/
def powPredB (difficulty : Nat) (challenge : List Nat) (nonce : Nat) : Bool :=
  startsWith (hexEncodeChars (sha256Bytes (challenge ++ decimalBytes nonce)))
    (List.replicate difficulty '0')

/-- `computeSolution` iterates nonce = 0, 1, 2, … and returns the decimal text
of the first nonce satisfying the difficulty predicate.  The Go loop is
unbounded; the embedding takes the hypothesis that a satisfying nonce exists
and returns the least one via `Nat.find`. -/
def computeSolution (challenge : List Nat) (difficulty : Nat)
    (hex : ∃ n, powPredB difficulty challenge n = true) : List Char :=
  decimalChars (Nat.find hex)

/-- `FindSolution` delegates to `computeSolution`. -/
def ProofOfWork.FindSolution (_pow : ProofOfWork) (challenge : List Nat) (difficulty : Nat)
    (hex : ∃ n, powPredB difficulty challenge n = true) : List Char :=
  computeSolution challenge difficulty hex

/-! ## Base64 (`encoding/base64.StdEncoding`)

Go's standard base64 with `=` padding.  Encoding masks each 6-bit index with
`0x3F` exactly as Go's encoder does; decoding accepts the padded forms and
rejects any character outside the alphabet (the CR/LF skipping of Go's
decoder is not modelled — no line breaks arise in this protocol's single-line
solutions). -/

/-- The standard base64 alphabet. -/
def b64Alpha : List Char :=
  "ABCDEFGHIJKLMNOPQRSTUVWXYZabcdefghijklmnopqrstuvwxyz0123456789+/".data

/-- The alphabet character of a 6-bit group (Go masks with `0x3F`). -/
def b64Char (n : Nat) : Char := b64Alpha.getD (n % 64) 'A'

/-- The 6-bit value of an alphabet character, `none` outside the alphabet
(Go's `decodeMap`, with `0xFF` as `none`). -/
def b64Index (c : Char) : Option Nat := b64Alpha.indexOf? c

/-- `b64EncodeChars bs` is Go's `base64.StdEncoding.EncodeToString(bs)`:
3 input bytes become 4 alphabet characters, with `=` padding closing a final
1- or 2-byte group. -/
def b64EncodeChars : List Nat → List Char
  | [] => []
  | [b0] => [b64Char (b0 / 4), b64Char (b0 % 4 * 16), '=', '=']
  | [b0, b1] => [b64Char (b0 / 4), b64Char (b0 % 4 * 16 + b1 / 16), b64Char (b1 % 16 * 4), '=']
  | b0 :: b1 :: b2 :: rest =>
    b64Char (b0 / 4) :: b64Char (b0 % 4 * 16 + b1 / 16) ::
      b64Char (b1 % 16 * 4 + b2 / 64) :: b64Char (b2 % 64) :: b64EncodeChars rest

/-- Go's base64 decoder skips carriage returns and newlines wherever they
appear in the input. -/
def b64Skip (s : List Char) : List Char :=
  s.filter (fun c => !(c == Char.ofNat 13 || c == '\n'))

/-- The quadruple phase of Go's base64 decoder, after CR/LF skipping:
quadruples of alphabet characters, with `=` padding allowed only to close
the final quadruple; `none` on any corrupt input. -/
def b64DecodeQuads : List Char → Option (List Nat)
  | [] => some []
  | c0 :: c1 :: c2 :: c3 :: rest =>
    match b64Index c0, b64Index c1 with
    | some i0, some i1 =>
      if c2 = '=' then
        if c3 = '=' ∧ rest = [] then some [i0 * 4 + i1 / 16] else none
      else
        match b64Index c2 with
        | some i2 =>
          if c3 = '=' then
            if rest = [] then some [i0 * 4 + i1 / 16, i1 % 16 * 16 + i2 / 4] else none
          else
            match b64Index c3, b64DecodeQuads rest with
            | some i3, some bs =>
              some ((i0 * 4 + i1 / 16) :: (i1 % 16 * 16 + i2 / 4) :: (i2 % 4 * 64 + i3) :: bs)
            | _, _ => none
        | none => none
    | _, _ => none
  | _ => none

/-- `b64DecodeChars s` is Go's `base64.StdEncoding.DecodeString(s)`: skip
CR/LF anywhere, then decode the quadruples. -/
def b64DecodeChars (s : List Char) : Option (List Nat) :=
  b64DecodeQuads (b64Skip s)

/-! ## Argon2 strategy (`pkg/pow/argon2`, memory-bound cost proof)

The external `argon2.IDKey(challenge, salt, time, memory, threads, keyLen)`
is an abstract parameter `idKey`; the fixed memory/parallelism/length
parameters are absorbed into it, and the time cost is the strategy's
difficulty, passed explicitly so that solving and verifying visibly use the
same difficulty. -/

/-- Errors of the argon2 package. -/
inductive A2Err
  | difficultyRange
  | generateRandom
  | timeout
  | invalidSolution
  | invalidFormat
  | invalidHashEncoding
  | invalidSaltEncoding
deriving DecidableEq

/-- `Argon2` encapsulates the Argon2-based proof-of-work mechanism. -/
structure Argon2 where
  difficultyLevel : Nat
deriving DecidableEq

/-- `NewArgon2` initializes an `Argon2` with a specified difficulty,
rejecting difficulties outside `[1, 10]` with `ErrDifficultyRange`. -/
def NewArgon2 (difficulty : Nat) : Except A2Err Argon2 :=
  if difficulty < 1 ∨ difficulty > 10 then .error .difficultyRange
  else .ok { difficultyLevel := difficulty }

/-- `GetDifficulty` returns the current difficulty level. -/
def Argon2.GetDifficulty (pow : Argon2) : Nat := pow.difficultyLevel

/-- `FindSolution` derives a key from the challenge and a fresh random salt
(here a parameter) and returns `base64(key) ++ "$" ++ base64(salt)`.  The
computation-timeout branch is timing behaviour and is not modelled; this is
the value returned when no timeout occurs. -/
def Argon2.FindSolution (pow : Argon2) (idKey : Nat → List Nat → List Nat → List Nat)
    (challenge salt : List Nat) : List Char :=
  b64EncodeChars (idKey pow.difficultyLevel challenge salt) ++ '$' :: b64EncodeChars salt

/-- Go's `strings.Split(s, sep)` for a single-character separator. -/
def goSplit (sep : Char) : List Char → List (List Char)
  | [] => [[]]
  | c :: cs =>
    if c = sep then [] :: goSplit sep cs
    else
      match goSplit sep cs with
      | p :: ps => (c :: p) :: ps
      | [] => [[c]]

/-- `Verify` splits the solution on `$` (exactly two parts or
`ErrInvalidFormat`), base64-decodes both parts (or a decoding error),
recomputes the key from the challenge and the decoded salt, and compares;
a mismatch is `(false, nil)`, i.e. `.ok false`. -/
def Argon2.Verify (pow : Argon2) (idKey : Nat → List Nat → List Nat → List Nat)
    (challenge : List Nat) (solutionStr : List Char) : Except A2Err Bool :=
  match goSplit '$' solutionStr with
  | [hashPart, saltPart] =>
    match b64DecodeChars hashPart with
    | none => .error .invalidHashEncoding
    | some hash =>
      match b64DecodeChars saltPart with
      | none => .error .invalidSaltEncoding
      | some salt =>
        let computedKey := idKey pow.difficultyLevel challenge salt
        if computedKey.length ≠ hash.length ∨ computedKey ≠ hash then .ok false
        else .ok true
  | _ => .error .invalidFormat

/-! ## Server errors (`internal/server/tcp/errors.go`) -/

/-- The sentinel error values of the server package (`errors.New` values),
plus an `other` family for foreign errors reaching the boundary. -/
inductive SrvSentinel
  | invalidProtocol
  | invalidSolution
  | connectionClosed
  | readTimeout
  | writeTimeout
  | challengeFailed
  | challengeDelivery
  | solutionFormat
  | solutionValidation
  | serverShutdown
  | internal
  | invalidChallengeType
  | other (n : Nat)
deriving DecidableEq

/-- A server-side Go error value: a sentinel, a `ServerError{Op, Err, Info}`
wrapper, or an `fmt.Errorf("...: %w", err)` wrapper; both wrappers unwrap to
the inner error. -/
inductive SrvErr
  | sentinel (s : SrvSentinel)
  | wrap (op : String) (err : SrvErr) (info : String)
  | wrapf (msg : String) (err : SrvErr)
deriving DecidableEq

/-- `NewConnectionError(op, err, info)` builds a `ServerError` wrapper. -/
def NewConnectionError (op : String) (err : SrvErr) (info : String) : SrvErr :=
  .wrap op err info

/-- Go's `errors.Is(e, target)` for a sentinel target: walk the unwrap
chain. -/
def errIs (e : SrvErr) (target : SrvSentinel) : Bool :=
  match e with
  | .sentinel s => s = target
  | .wrap _ inner _ => errIs inner target
  | .wrapf _ inner => errIs inner target

/-- `IsTimeoutError` from `errors.go`. -/
def IsTimeoutError (e : SrvErr) : Bool := errIs e .readTimeout || errIs e .writeTimeout

/-- A client-visible error response `{Code, Message}`. -/
structure ErrorResponse where
  Code : String
  Message : String
deriving DecidableEq

/-- `ErrRespInvalidFormat`. -/
def ErrRespInvalidFormat : ErrorResponse :=
  { Code := "INVALID_FORMAT", Message := "Invalid message format" }

/-- `ErrRespTimeout`. -/
def ErrRespTimeout : ErrorResponse :=
  { Code := "TIMEOUT", Message := "Operation timed out" }

/-- `ErrRespInvalidSolution`. -/
def ErrRespInvalidSolution : ErrorResponse :=
  { Code := "INVALID_SOLUTION", Message := "Invalid proof of work solution" }

/-- `ErrRespInternal`: the default branch of `ToErrorResponse`. -/
def ErrRespInternal : ErrorResponse :=
  { Code := "INTERNAL_ERROR", Message := "An internal error occurred" }

/-- `ToErrorResponse` maps any server fault to one of the four public
responses. -/
def ToErrorResponse (err : SrvErr) : ErrorResponse :=
  if errIs err .invalidProtocol then ErrRespInvalidFormat
  else if IsTimeoutError err then ErrRespTimeout
  else if errIs err .invalidSolution then ErrRespInvalidSolution
  else ErrRespInternal

/-! ## Server session (`internal/server/tcp/server.go`)

The session's deterministic data flow, with socket I/O replaced by explicit
inputs (the client's two lines) and an output trace of the frames the server
writes.  The PoW usecase validators are function parameters, so which one the
dispatch invokes is directly observable. -/

/-- The two challenge kinds. -/
inductive Kind
  | cpu
  | memory
deriving DecidableEq

/-- The kind chosen by `sendChallenge` from the `shouldSendCPUBoundChallenge`
coin flip (`rand.Intn(2) == 0`). -/
def kindOfCoin (coin : Bool) : Kind := if coin then .cpu else .memory

/-- The wire tag string of a kind, as `sendChallenge` sets `challengeType`. -/
def kindTag : Kind → String
  | .cpu => "CPU"
  | .memory => "Memory"

/-- A frame written by the server to the connection. -/
inductive Frame
  | typeByte (b : Nat)
  | lengthWord (n : Int)
  | payload (bs : List Nat)
  | line (s : String)
deriving DecidableEq

/-- Go `unicode.IsSpace`: the Unicode White_Space code points that
`strings.TrimSpace` strips — `0x09`–`0x0D`, space, NEL, NBSP, and the
`Zs`-category spaces. -/
def isSpaceGo (c : Char) : Bool :=
  c = ' ' || (Char.ofNat 9 ≤ c ∧ c ≤ Char.ofNat 13) ||
  c = Char.ofNat 0x85 || c = Char.ofNat 0xA0 || c = Char.ofNat 0x1680 ||
  (Char.ofNat 0x2000 ≤ c ∧ c ≤ Char.ofNat 0x200A) ||
  c = Char.ofNat 0x2028 || c = Char.ofNat 0x2029 || c = Char.ofNat 0x202F ||
  c = Char.ofNat 0x205F || c = Char.ofNat 0x3000

/-- Go's `strings.TrimSpace`. -/
def trimSpace (s : List Char) : List Char :=
  ((s.dropWhile isSpaceGo).reverse.dropWhile isSpaceGo).reverse

/-- `parseSolution` trims the line and returns its bytes. -/
def parseSolution (line : List Char) : List Nat :=
  (trimSpace line).map Char.toNat

/-- `formatSuccessResponse`. -/
def formatSuccessResponse (quote : String) : String := "SUCCESS:" ++ quote ++ "\n"

/-- The result of one session: which verifier the dispatch invoked (if any),
the error `Handle` returned (if any), and the outcome frames written in
step 3. -/
structure SessionOutcome where
  verifierUsed : Option Kind
  fault : Option SrvErr
  frames : List Frame
deriving DecidableEq

/-- `validateAndRespond(challengeType, challenge, solution)`: switch on the
challenge-type string, validate with the matching usecase, and on success
write the success line. -/
def validateAndRespond
    (validateCPU : List Nat → List Nat → Bool)
    (validateMemory : List Nat → List Nat → Except SrvErr Bool)
    (quote : String)
    (challengeType : String) (challenge solution : List Nat) : SessionOutcome :=
  if challengeType = "CPU" then
    if validateCPU challenge solution then
      { verifierUsed := some .cpu, fault := none,
        frames := [.line (formatSuccessResponse quote)] }
    else
      { verifierUsed := some .cpu,
        fault := some (NewConnectionError "validateAndRespond"
          (.sentinel .invalidSolution) "validation failed"),
        frames := [] }
  else if challengeType = "Memory" then
    match validateMemory challenge solution with
    | .error e =>
      { verifierUsed := some .memory,
        fault := some (NewConnectionError "validateAndRespond" e "validation failed"),
        frames := [] }
    | .ok false =>
      { verifierUsed := some .memory,
        fault := some (NewConnectionError "validateAndRespond"
          (.sentinel .invalidSolution) "validation failed"),
        frames := [] }
    | .ok true =>
      { verifierUsed := some .memory, fault := none,
        frames := [.line (formatSuccessResponse quote)] }
  else
    { verifierUsed := none,
      fault := some (NewConnectionError "validateAndRespond"
        (.sentinel .invalidChallengeType) "unknown challenge type"),
      frames := [] }

/-- The result of a whole connection: the session outcome and every frame
the server wrote (challenge frames, then outcome frames, including the error
response `handleError` sends when `Handle` fails). -/
structure ConnOutcome where
  verifierUsed : Option Kind
  fault : Option SrvErr
  frames : List Frame
deriving DecidableEq

/-- The type byte `sendChallengeType` writes for a tag. -/
def challengeTypeByte : Kind → Nat
  | .cpu => 0x00
  | .memory => 0x01

/-- `Session.Handle` followed by `handleConnection`'s error handling:
step 1 picks the strategy by the coin and sends the challenge (generation
failure is a `ChallengeFailed` fault ending the session); step 2 reads the
client's challenge-type line and solution line; step 3 dispatches on the
challenge-type string read from the client.  If `Handle` returns an error,
`handleConnection` sends `ERROR:<code>:<message>` via `handleError`.
`Handle` wraps each step's error with `fmt.Errorf` context. -/
def handleConnection
    (validateCPU : List Nat → List Nat → Bool)
    (validateMemory : List Nat → List Nat → Except SrvErr Bool)
    (quote : String)
    (coin : Bool)
    (genCPU genMem : Except SrvErr (List Nat))
    (typeLine solutionLine : List Char) : ConnOutcome :=
  let serverKind := kindOfCoin coin
  match (match serverKind with | .cpu => genCPU | .memory => genMem) with
  | .error _ =>
    let fault := SrvErr.wrapf "failed to send challenge"
      (NewConnectionError "sendChallenge" (.sentinel .challengeFailed)
        (kindTag serverKind ++ "-bound challenge generation failed"))
    let resp := ToErrorResponse fault
    { verifierUsed := none, fault := some fault,
      frames := [.line ("ERROR:" ++ resp.Code ++ ":" ++ resp.Message ++ "\n")] }
  | .ok challenge =>
    let challengeType := String.mk (trimSpace typeLine)
    let solution := parseSolution solutionLine
    let s := validateAndRespond validateCPU validateMemory quote challengeType challenge solution
    let sent : List Frame :=
      [.typeByte (challengeTypeByte serverKind), .lengthWord (Int.ofNat challenge.length),
       .payload challenge]
    match s.fault with
    | none => { verifierUsed := s.verifierUsed, fault := none, frames := sent ++ s.frames }
    | some e =>
      let fault := SrvErr.wrapf "failed to validate and respond" e
      let resp := ToErrorResponse fault
      { verifierUsed := s.verifierUsed, fault := some fault,
        frames := sent ++ s.frames ++
          [.line ("ERROR:" ++ resp.Code ++ ":" ++ resp.Message ++ "\n")] }

/-- Whether a frame is an outcome line (`SUCCESS:` or `ERROR:`). -/
def isOutcomeFrame : Frame → Bool
  | .line s => startsWith s.data "SUCCESS:".data || startsWith s.data "ERROR:".data
  | _ => false

/-! ## Client errors (client `tcp` package `errors.go`) -/

/-- The client package's sentinel errors. -/
inductive CliSentinel
  | invalidProtocol
  | invalidMessageSize
  | connectionClosed
  | readTimeout
  | writeTimeout
  | invalidChallenge
  | solutionNotFound
  | invalidChallengeType
  | maxRetriesExceeded
  | ioError (n : Nat)
deriving DecidableEq

/-- A client-side Go error: a sentinel or a `ClientError{Op, Err, Info}`
wrapper. -/
inductive CliErr
  | sentinel (s : CliSentinel)
  | wrap (op : String) (err : CliErr) (info : String)
deriving DecidableEq

/-- `NewClientError(op, err, info)`. -/
def NewClientError (op : String) (err : CliErr) (info : String) : CliErr :=
  .wrap op err info

/-! ## Client session: challenge decoding (`ClientSession.receiveChallenge`)

The dual-strategy client's `receiveChallenge`: one type byte, a big-endian
signed 32-bit length, then the payload.  The connection is modelled as the
byte list available to read; `MaxMessageSize` is the `int64` configuration
field, converted to `int32` at the comparison exactly as the code does. -/

/-- A decoded challenge `{Data, Type}`. -/
structure CliChallenge where
  data : List Nat
  typeTag : String
deriving DecidableEq

/-- Go's `int32(x)` conversion of an `int64` value: two's-complement
truncation to 32 bits. -/
def int32ofInt (x : Int) : Int :=
  let m := x % 4294967296
  if m < 2147483648 then m else m - 4294967296

/-- The signed 32-bit big-endian value of four bytes (`binary.Read` into an
`int32`). -/
def int32ofBytes (b0 b1 b2 b3 : Nat) : Int :=
  let u := ((b0 * 256 + b1) * 256 + b2) * 256 + b3
  if u < 2147483648 then (u : Int) else (u : Int) - 4294967296

/-- `receiveChallenge` on the available input bytes: read the type byte
(reject tags other than `0x00`/`0x01` with `InvalidChallengeType`), read the
length (reject `length ≤ 0` and `length > int32(MaxMessageSize)` with
`InvalidMessageSize` before any buffer is made), then read `length` bytes
(plain EOF is `ConnectionClosed`). -/
def receiveChallenge (maxMessageSize : Int) (input : List Nat) : Except CliErr CliChallenge :=
  match input with
  | [] =>
    .error (NewClientError "receiveChallenge" (.sentinel (.ioError 0))
      "reading challengeType failed")
  | tb :: rest =>
    if tb ≠ 0x00 ∧ tb ≠ 0x01 then
      .error (NewClientError "receiveChallenge" (.sentinel .invalidChallengeType)
        "invalid challenge type")
    else
      match rest with
      | b0 :: b1 :: b2 :: b3 :: rest2 =>
        let length := int32ofBytes b0 b1 b2 b3
        if length ≤ 0 ∨ length > int32ofInt maxMessageSize then
          .error (NewClientError "receiveChallenge" (.sentinel .invalidMessageSize)
            "invalid challenge size")
        else
          let n := length.toNat
          if n ≤ rest2.length then
            .ok { data := rest2.take n, typeTag := if tb = 0x00 then "CPU" else "Memory" }
          else if rest2 = [] then
            .error (NewClientError "receiveChallenge" (.sentinel .connectionClosed)
              "unexpected EOF")
          else
            .error (NewClientError "receiveChallenge" (.sentinel (.ioError 1))
              "reading challenge failed")
      | _ =>
        .error (NewClientError "receiveChallenge" (.sentinel (.ioError 0))
          "reading length failed")

/-! ## Client retry loops (`Client.Start`)

Two variants exist in the repository.  The current dual-strategy client's
`Start` runs a fixed number (`maxConnections = 10`) of concurrent session
attempts and waits for all of them; the superseded single-strategy client's
`Start` retries sequentially up to the configured count.  Session execution
is a function from the attempt number to `none` (success) or `some` error;
for the concurrent variant, the shared `lastErr` is resolved by an explicit
goroutine completion order. -/

/-- The hard-coded `maxConnections` of the current `Client.Start`. -/
def maxConnections : Nat := 10

/-- The attempt numbers the current `Start` launches: the loop body runs for
`attempt = 0, …, maxConnections - 1` whatever the configuration or the
session results. -/
def clientStartConcAttempts (_retryAttempts : Nat) : List Nat :=
  List.range maxConnections

/-- The `lastErr` the current `Start` returns: each completing goroutine
whose session failed overwrites `lastErr` with its wrapped error; a
successful session writes nothing.  `order` is the completion order of the
launched attempts. -/
def clientStartConcResult (sessions : Nat → Option CliErr) (order : List Nat) : Option CliErr :=
  order.foldl
    (fun acc i =>
      match sessions i with
      | some e => some (NewClientError "Start" e "session failed")
      | none => acc)
    none

/-- The superseded sequential `Start` from attempt `attempt` with
`retryAttempts - attempt` rounds left: run the session, return `nil` at the
first success, otherwise remember the wrapped error and continue; the second
component counts the sessions executed. -/
def startSeqFrom (sessions : Nat → Option CliErr) (lastErr : Option CliErr)
    (attempt : Nat) : Nat → Option CliErr × Nat
  | 0 => (lastErr, 0)
  | remaining + 1 =>
    match sessions attempt with
    | none => (none, 1)
    | some e =>
      let r := startSeqFrom sessions (some (NewClientError "Start" e "session failed"))
        (attempt + 1) remaining
      (r.1, r.2 + 1)

/-- The superseded sequential `Client.Start`: up to `retryAttempts`
attempts. -/
def clientStartSeq (retryAttempts : Nat) (sessions : Nat → Option CliErr) :
    Option CliErr × Nat :=
  startSeqFrom sessions none 0 retryAttempts

/-! ## PoW usecases (`internal/usecases/pow.go`)

The validators guard empty inputs before delegating to the strategy.  The
underlying verifier is a function parameter, so that the guard's
short-circuiting (the hash is never invoked on empty input) is expressible
as insensitivity to the verifier.  (`powUsecaseImpl` holds a
`hashcash.HashCash` and an `argon2.Argon2`; the hashcash verifier is the
SHA-256 prefix check embedded above, the argon2 verifier is
`Argon2.Verify`.) -/

/-- `ValidateCPUBoundSolution`: `false` on empty challenge or nonce, else the
hashcash verification. -/
def ValidateCPUBoundSolution (verify : List Nat → List Nat → Bool)
    (challenge nonce : List Nat) : Bool :=
  if challenge.length = 0 ∨ nonce.length = 0 then false
  else verify challenge nonce

/-- `ValidateMemoryBoundSolution`: `(false, nil)` on empty challenge or
nonce, else the argon2 verification, whose error comes back wrapped with the
`fmt.Errorf` context string. -/
def ValidateMemoryBoundSolution (verify : List Nat → List Nat → Except A2Err Bool)
    (challenge nonce : List Nat) : Except (String × A2Err) Bool :=
  if challenge.length = 0 ∨ nonce.length = 0 then .ok false
  else
    match verify challenge nonce with
    | .error e => .error ("failed to verify argon2 solution", e)
    | .ok b => .ok b

/-! ## Helper lemmas: base64 and `strings.Split` -/

/-- Decoding inverts the alphabet map on 6-bit values. -/
theorem b64Index_b64Char (n : Nat) : b64Index (b64Char n) = some (n % 64) := by
  have h64 : ∀ m, m < 64 → b64Index (b64Alpha.getD m 'A') = some m := by decide
  have h : n % 64 < 64 := Nat.mod_lt _ (by omega)
  have hc : b64Char n = b64Alpha.getD (n % 64) 'A' := rfl
  rw [hc, h64 _ h]

/-- No alphabet character is the padding character. -/
theorem b64Char_ne_pad (n : Nat) : b64Char n ≠ '=' := by
  have h64 : ∀ m, m < 64 → b64Alpha.getD m 'A' ≠ '=' := by decide
  have h : n % 64 < 64 := Nat.mod_lt _ (by omega)
  exact h64 _ h

/-- No alphabet character is the solution separator `$`. -/
theorem b64Char_ne_dollar (n : Nat) : b64Char n ≠ '$' := by
  have h64 : ∀ m, m < 64 → b64Alpha.getD m 'A' ≠ '$' := by decide
  have h : n % 64 < 64 := Nat.mod_lt _ (by omega)
  exact h64 _ h

/-- Base64 text never contains `$`. -/
theorem dollar_notin_b64Encode : ∀ bs : List Nat, ¬ '$' ∈ b64EncodeChars bs
  | [] => by simp [b64EncodeChars]
  | [b0] => by
    simp only [b64EncodeChars, List.mem_cons, List.not_mem_nil, or_false]
    intro h
    rcases h with h | h | h | h
    · exact b64Char_ne_dollar _ h.symm
    · exact b64Char_ne_dollar _ h.symm
    · exact absurd h (by decide)
    · exact absurd h (by decide)
  | [b0, b1] => by
    simp only [b64EncodeChars, List.mem_cons, List.not_mem_nil, or_false]
    intro h
    rcases h with h | h | h | h
    · exact b64Char_ne_dollar _ h.symm
    · exact b64Char_ne_dollar _ h.symm
    · exact b64Char_ne_dollar _ h.symm
    · exact absurd h (by decide)
  | b0 :: b1 :: b2 :: rest => by
    simp only [b64EncodeChars, List.mem_cons]
    intro h
    rcases h with h | h | h | h | h
    · exact b64Char_ne_dollar _ h.symm
    · exact b64Char_ne_dollar _ h.symm
    · exact b64Char_ne_dollar _ h.symm
    · exact b64Char_ne_dollar _ h.symm
    · exact dollar_notin_b64Encode rest h

/-- `strings.Split` on a separator-free string yields that one part. -/
theorem goSplit_no_sep (sep : Char) : ∀ s : List Char, ¬ sep ∈ s → goSplit sep s = [s]
  | [], _ => rfl
  | c :: cs, h => by
    have hc : ¬ c = sep := fun hcs => h (hcs ▸ List.mem_cons_self c cs)
    have hcs : ¬ sep ∈ cs := fun hm => h (List.mem_cons_of_mem c hm)
    simp only [goSplit, if_neg hc, goSplit_no_sep sep cs hcs]

/-- `strings.Split` peels a separator-free part before a separator. -/
theorem goSplit_append (sep : Char) :
    ∀ a b : List Char, ¬ sep ∈ a → goSplit sep (a ++ sep :: b) = a :: goSplit sep b
  | [], b, _ => by simp [goSplit]
  | c :: a, b, h => by
    have hc : ¬ c = sep := fun hcs => h (hcs ▸ List.mem_cons_self c a)
    have ha : ¬ sep ∈ a := fun hm => h (List.mem_cons_of_mem c hm)
    simp only [List.cons_append, goSplit, if_neg hc, List.append_eq,
      goSplit_append sep a b ha]

/-- The quadruple decoder inverts the encoder on byte lists. -/
theorem b64Quads_roundtrip : ∀ bs : List Nat, (∀ b ∈ bs, b < 256) →
    b64DecodeQuads (b64EncodeChars bs) = some bs
  | [], _ => rfl
  | [b0], h => by
    have hb0 : b0 < 256 := h b0 (by simp)
    simp [b64EncodeChars, b64DecodeQuads, b64Index_b64Char]
    omega
  | [b0, b1], h => by
    have hb0 : b0 < 256 := h b0 (by simp)
    have hb1 : b1 < 256 := h b1 (by simp)
    simp [b64EncodeChars, b64DecodeQuads, b64Index_b64Char, b64Char_ne_pad]
    constructor <;> omega
  | b0 :: b1 :: b2 :: rest, h => by
    have hb0 : b0 < 256 := h b0 (by simp)
    have hb1 : b1 < 256 := h b1 (by simp)
    have hb2 : b2 < 256 := h b2 (by simp)
    have hrest : ∀ b ∈ rest, b < 256 := fun b hb => h b (by simp [hb])
    have hr := b64Quads_roundtrip rest hrest
    simp [b64EncodeChars, b64DecodeQuads, b64Index_b64Char, b64Char_ne_pad, hr]
    refine ⟨by omega, by omega, by omega⟩

/-- No alphabet character is a carriage return. -/
theorem b64Char_ne_cr (n : Nat) : b64Char n ≠ Char.ofNat 13 := by
  have h64 : ∀ m, m < 64 → b64Alpha.getD m 'A' ≠ Char.ofNat 13 := by decide
  exact h64 _ (Nat.mod_lt _ (by omega))

/-- No alphabet character is a newline. -/
theorem b64Char_ne_lf (n : Nat) : b64Char n ≠ '\n' := by
  have h64 : ∀ m, m < 64 → b64Alpha.getD m 'A' ≠ '\n' := by decide
  exact h64 _ (Nat.mod_lt _ (by omega))

/-- Every character of base64 text is an alphabet character or padding. -/
theorem mem_b64Encode : ∀ (bs : List Nat) (c : Char), c ∈ b64EncodeChars bs →
    (∃ n, c = b64Char n) ∨ c = '='
  | [], c => by simp [b64EncodeChars]
  | [b0], c => by
    intro h
    simp only [b64EncodeChars, List.mem_cons, List.not_mem_nil, or_false] at h
    rcases h with h | h | h | h
    · exact Or.inl ⟨_, h⟩
    · exact Or.inl ⟨_, h⟩
    · exact Or.inr h
    · exact Or.inr h
  | [b0, b1], c => by
    intro h
    simp only [b64EncodeChars, List.mem_cons, List.not_mem_nil, or_false] at h
    rcases h with h | h | h | h
    · exact Or.inl ⟨_, h⟩
    · exact Or.inl ⟨_, h⟩
    · exact Or.inl ⟨_, h⟩
    · exact Or.inr h
  | b0 :: b1 :: b2 :: rest, c => by
    intro h
    simp only [b64EncodeChars, List.mem_cons] at h
    rcases h with h | h | h | h | h
    · exact Or.inl ⟨_, h⟩
    · exact Or.inl ⟨_, h⟩
    · exact Or.inl ⟨_, h⟩
    · exact Or.inl ⟨_, h⟩
    · exact mem_b64Encode rest c h

/-- Base64 text contains no CR or LF, so the decoder's skipping phase leaves
encoder output unchanged. -/
theorem b64Skip_b64Encode (bs : List Nat) :
    b64Skip (b64EncodeChars bs) = b64EncodeChars bs := by
  unfold b64Skip
  rw [List.filter_eq_self]
  intro c hc
  rcases mem_b64Encode bs c hc with ⟨n, rfl⟩ | rfl
  · simp [b64Char_ne_cr n, b64Char_ne_lf n]
  · decide

/-- Go's base64 decoder inverts its encoder on byte lists. -/
theorem b64_roundtrip (bs : List Nat) (h : ∀ b ∈ bs, b < 256) :
    b64DecodeChars (b64EncodeChars bs) = some bs := by
  unfold b64DecodeChars
  rw [b64Skip_b64Encode, b64Quads_roundtrip bs h]

/-! ## Claim theorems -/

/-- C3: for every difficulty `t ∈ [1, 10]` and every payload, a solution the
cost-based `FindSolution` returns without error — `base64(key)$base64(salt)`
for the key derived from the payload and a fresh salt — verifies under
`Verify` with the same difficulty: the split yields exactly two parts, both
decode, and the recomputed key matches, so the result is `(true, nil)`. -/
theorem argon2_find_solution_verifies (idKey : Nat → List Nat → List Nat → List Nat)
    (t : Nat) (challenge salt : List Nat)
    (ht : 1 ≤ t ∧ t ≤ 10)
    (hkey : ∀ b ∈ idKey t challenge salt, b < 256)
    (hsalt : ∀ b ∈ salt, b < 256) :
    Argon2.Verify ⟨t⟩ idKey challenge (Argon2.FindSolution ⟨t⟩ idKey challenge salt) =
      .ok true := by
  unfold Argon2.FindSolution Argon2.Verify
  rw [goSplit_append '$' _ _ (dollar_notin_b64Encode _),
    goSplit_no_sep '$' _ (dollar_notin_b64Encode _)]
  simp [b64_roundtrip _ hkey, b64_roundtrip _ hsalt]

/-- Witness for C3 at a concrete key-derivation function, payload, and salt. -/
theorem argon2_find_solution_verifies_witness :
    Argon2.Verify ⟨1⟩ (fun _ _ _ => [1, 2, 3]) [9]
      (Argon2.FindSolution ⟨1⟩ (fun _ _ _ => [1, 2, 3]) [9] [4, 5]) = .ok true :=
  argon2_find_solution_verifies (fun _ _ _ => [1, 2, 3]) 1 [9] [4, 5]
    (by decide) (by decide) (by decide)

/-- C4: the cost-based `Verify` fails with the invalid-format error whenever
splitting on `$` does not yield exactly two parts, fails with a decoding
error when a part is not valid base64, returns `(false, nil)` when the
decoded hash differs from the recomputed key, and returns `(true, nil)` only
when the decoded hash equals the recomputed key. -/
theorem argon2_verify_error_paths (idKey : Nat → List Nat → List Nat → List Nat)
    (t : Nat) (challenge : List Nat) (s : List Char) :
    ((goSplit '$' s).length ≠ 2 →
      Argon2.Verify ⟨t⟩ idKey challenge s = .error .invalidFormat)
    ∧ (∀ a b, goSplit '$' s = [a, b] → b64DecodeChars a = none →
      Argon2.Verify ⟨t⟩ idKey challenge s = .error .invalidHashEncoding)
    ∧ (∀ a b ha, goSplit '$' s = [a, b] → b64DecodeChars a = some ha →
      b64DecodeChars b = none →
      Argon2.Verify ⟨t⟩ idKey challenge s = .error .invalidSaltEncoding)
    ∧ (∀ a b ha sa, goSplit '$' s = [a, b] → b64DecodeChars a = some ha →
      b64DecodeChars b = some sa → ha ≠ idKey t challenge sa →
      Argon2.Verify ⟨t⟩ idKey challenge s = .ok false)
    ∧ (Argon2.Verify ⟨t⟩ idKey challenge s = .ok true →
      ∃ a b sa, goSplit '$' s = [a, b] ∧ b64DecodeChars b = some sa ∧
        b64DecodeChars a = some (idKey t challenge sa)) := by
  refine ⟨?_, ?_, ?_, ?_, ?_⟩
  · intro hlen
    unfold Argon2.Verify
    rcases hsp : goSplit '$' s with _ | ⟨a, _ | ⟨b, _ | ⟨c, rest⟩⟩⟩
    · rfl
    · rfl
    · exact absurd (by rw [hsp]; rfl) hlen
    · rfl
  · intro a b hsp hdec
    unfold Argon2.Verify
    rw [hsp]
    simp [hdec]
  · intro a b ha hsp hdeca hdecb
    unfold Argon2.Verify
    rw [hsp]
    simp [hdeca, hdecb]
  · intro a b ha sa hsp hdeca hdecb hne
    unfold Argon2.Verify
    rw [hsp]
    simp only [hdeca, hdecb]
    rw [if_pos (Or.inr (Ne.symm hne))]
  · intro hok
    rcases hsp : goSplit '$' s with _ | ⟨a, _ | ⟨b, _ | ⟨c, rest⟩⟩⟩
    · have hval : Argon2.Verify ⟨t⟩ idKey challenge s = .error .invalidFormat := by
        unfold Argon2.Verify; rw [hsp]
      rw [hval] at hok; cases hok
    · have hval : Argon2.Verify ⟨t⟩ idKey challenge s = .error .invalidFormat := by
        unfold Argon2.Verify; rw [hsp]
      rw [hval] at hok; cases hok
    · rcases hdeca : b64DecodeChars a with _ | ha
      · have hval : Argon2.Verify ⟨t⟩ idKey challenge s = .error .invalidHashEncoding := by
          unfold Argon2.Verify; rw [hsp]; simp [hdeca]
        rw [hval] at hok; cases hok
      rcases hdecb : b64DecodeChars b with _ | sa
      · have hval : Argon2.Verify ⟨t⟩ idKey challenge s = .error .invalidSaltEncoding := by
          unfold Argon2.Verify; rw [hsp]; simp [hdeca, hdecb]
        rw [hval] at hok; cases hok
      by_cases hcond : (idKey t challenge sa).length ≠ ha.length ∨ idKey t challenge sa ≠ ha
      · have hval : Argon2.Verify ⟨t⟩ idKey challenge s = .ok false := by
          unfold Argon2.Verify; rw [hsp]; simp only [hdeca, hdecb]
          rw [if_pos hcond]
        rw [hval] at hok; cases hok
      · push_neg at hcond
        exact ⟨a, b, sa, rfl, hdecb, by rw [hdeca, hcond.2]⟩
    · have hval : Argon2.Verify ⟨t⟩ idKey challenge s = .error .invalidFormat := by
        unfold Argon2.Verify; rw [hsp]
      rw [hval] at hok; cases hok

/-- Witness for C4 on a solution string with no `$` separator. -/
theorem argon2_verify_error_paths_witness :
    Argon2.Verify ⟨1⟩ (fun _ _ _ => []) [] "ab".data = .error .invalidFormat :=
  (argon2_verify_error_paths (fun _ _ _ => []) 1 [] "ab".data).1 (by decide)

/-- C6: the server's fault-to-response mapping always produces one of the
four fixed `{code, message}` constants — `INVALID_FORMAT`, `TIMEOUT`,
`INVALID_SOLUTION`, `INTERNAL_ERROR` — so the original error's text never
reaches the client. -/
theorem toErrorResponse_closed_vocabulary (e : SrvErr) :
    ToErrorResponse e = ErrRespInvalidFormat ∨ ToErrorResponse e = ErrRespTimeout ∨
    ToErrorResponse e = ErrRespInvalidSolution ∨ ToErrorResponse e = ErrRespInternal := by
  unfold ToErrorResponse
  split_ifs <;> simp

/-- C9: the search-based constructor succeeds exactly on difficulties in
`[1, 64]` and the cost-based constructor exactly on `[1, 10]`, failing with
the difficulty-range error otherwise; each constructed strategy reports the
requested difficulty through `GetDifficulty`. -/
theorem newStrategy_difficulty_range (d : Nat) :
    (NewProofOfWork d = if 1 ≤ d ∧ d ≤ 64 then .ok ⟨d⟩ else .error .difficultyRange)
    ∧ (NewArgon2 d = if 1 ≤ d ∧ d ≤ 10 then .ok ⟨d⟩ else .error .difficultyRange)
    ∧ ProofOfWork.GetDifficulty ⟨d⟩ = d ∧ Argon2.GetDifficulty ⟨d⟩ = d := by
  refine ⟨?_, ?_, rfl, rfl⟩
  · unfold NewProofOfWork
    by_cases hc : 1 ≤ d ∧ d ≤ 64
    · rw [if_pos hc, if_neg (by omega)]
    · rw [if_neg hc, if_pos (by omega)]
  · unfold NewArgon2
    by_cases hc : 1 ≤ d ∧ d ≤ 10
    · rw [if_pos hc, if_neg (by omega)]
    · rw [if_neg hc, if_pos (by omega)]

/-- C10: on an empty challenge or an empty solution, the usecase validators
return `false` (CPU) and `(false, nil)` (memory) without consulting the
underlying verifier — the result is the same for every verifier function, so
the hash computation is never reached — and without raising an error. -/
theorem validate_empty_inputs
    (verifyC : List Nat → List Nat → Bool)
    (verifyM : List Nat → List Nat → Except A2Err Bool)
    (challenge nonce : List Nat)
    (hempty : challenge = [] ∨ nonce = []) :
    ValidateCPUBoundSolution verifyC challenge nonce = false
    ∧ ValidateMemoryBoundSolution verifyM challenge nonce = .ok false := by
  have hlen : challenge.length = 0 ∨ nonce.length = 0 := by
    rcases hempty with h | h <;> simp [h]
  constructor
  · unfold ValidateCPUBoundSolution
    rw [if_pos hlen]
  · unfold ValidateMemoryBoundSolution
    rw [if_pos hlen]

/-- Witness for C10 at an empty challenge and a non-empty nonce. -/
theorem validate_empty_inputs_witness :
    ValidateCPUBoundSolution (fun _ _ => true) [] [7] = false
    ∧ ValidateMemoryBoundSolution (fun _ _ => .ok true) [] [7] = .ok false :=
  validate_empty_inputs (fun _ _ => true) (fun _ _ => .ok true) [] [7] (Or.inl rfl)

/-- C2: for every difficulty `d ∈ [1, 64]` and payload for which a satisfying
nonce exists, `FindSolution` returns the base-10 text of the least nonce
whose concatenation digest has at least `d` leading hex zeros — earlier
nonces all fail the predicate — and consequently `Verify` on a strategy with
difficulty `d` accepts the returned solution's bytes. -/
theorem findSolution_least_and_verifies (d : Nat) (challenge : List Nat)
    (hd : 1 ≤ d ∧ d ≤ 64)
    (hex : ∃ n, powPredB d challenge n = true) :
    ProofOfWork.FindSolution ⟨d⟩ challenge d hex = decimalChars (Nat.find hex)
    ∧ powPredB d challenge (Nat.find hex) = true
    ∧ (∀ m, m < Nat.find hex → powPredB d challenge m = false)
    ∧ ProofOfWork.Verify ⟨d⟩ challenge
        ((ProofOfWork.FindSolution ⟨d⟩ challenge d hex).map Char.toNat) = true := by
  refine ⟨rfl, Nat.find_spec hex, ?_, ?_⟩
  · intro m hm
    have h := Nat.find_min hex hm
    exact Bool.not_eq_true _ ▸ Bool.of_not_eq_true h
  · exact Nat.find_spec hex

/-- Witness for C2 at difficulty 1 and payload `"d"`, whose digest with
nonce 0 already starts with a hex zero. -/
theorem findSolution_least_and_verifies_witness :
    ProofOfWork.Verify ⟨1⟩ [100]
      ((ProofOfWork.FindSolution ⟨1⟩ [100] 1
        ⟨0, by decide⟩).map Char.toNat) = true :=
  (findSolution_least_and_verifies 1 [100] (by decide) ⟨0, by decide⟩).2.2.2

/-- C1 counterexample: the server chooses the CPU kind (coin true), yet a
client sending back the tag `Memory` causes the memory-bound verifier to be
invoked — the client-supplied tag, not the server's chosen kind, selects the
verifier. -/
theorem dispatch_by_client_tag_counterexample :
    (handleConnection (fun _ _ => true) (fun _ _ => .ok true) "q" true (.ok [1]) (.ok [2])
      "Memory\n".data "123\n".data).verifierUsed = some Kind.memory
    ∧ kindOfCoin true = Kind.cpu
    ∧ some Kind.memory ≠ some Kind.cpu := by
  refine ⟨by decide, rfl, by decide⟩

/-- C1 amended: in a session whose challenge generation succeeded, the
verifier invoked is determined solely by the trimmed challenge-type line the
client sent — `CPU` selects the CPU-bound verifier, `Memory` the
memory-bound one, anything else invokes no verifier and ends the session
with the wrapped `InvalidChallengeType` fault — independently of the
server's own kind choice, which `Handle` never passes to the dispatch. -/
theorem dispatch_follows_client_tag
    (validateCPU : List Nat → List Nat → Bool)
    (validateMemory : List Nat → List Nat → Except SrvErr Bool)
    (quote : String) (coin : Bool) (bc bm : List Nat)
    (typeLine solutionLine : List Char) :
    (handleConnection validateCPU validateMemory quote coin (.ok bc) (.ok bm)
        typeLine solutionLine).verifierUsed =
      (if String.mk (trimSpace typeLine) = "CPU" then some Kind.cpu
       else if String.mk (trimSpace typeLine) = "Memory" then some Kind.memory
       else none)
    ∧ (String.mk (trimSpace typeLine) ≠ "CPU" → String.mk (trimSpace typeLine) ≠ "Memory" →
        (handleConnection validateCPU validateMemory quote coin (.ok bc) (.ok bm)
          typeLine solutionLine).fault =
          some (SrvErr.wrapf "failed to validate and respond"
            (NewConnectionError "validateAndRespond" (.sentinel .invalidChallengeType)
              "unknown challenge type"))) := by
  have hva : ∀ (ct : String) (ch sol : List Nat),
      (validateAndRespond validateCPU validateMemory quote ct ch sol).verifierUsed =
        (if ct = "CPU" then some Kind.cpu
         else if ct = "Memory" then some Kind.memory else none) := by
    intro ct ch sol
    unfold validateAndRespond
    by_cases h1 : ct = "CPU"
    · rw [if_pos h1, if_pos h1]
      split <;> rfl
    · rw [if_neg h1, if_neg h1]
      by_cases h2 : ct = "Memory"
      · rw [if_pos h2, if_pos h2]
        split <;> rfl
      · rw [if_neg h2, if_neg h2]
  constructor
  · cases coin <;>
    · unfold handleConnection kindOfCoin
      simp only [Bool.false_eq_true, if_true, if_false, ite_true, ite_false]
      split <;> simp [hva]
  · intro h1 h2
    have hs : ∀ ch sol, validateAndRespond validateCPU validateMemory quote
        (String.mk (trimSpace typeLine)) ch sol =
        { verifierUsed := none,
          fault := some (NewConnectionError "validateAndRespond"
            (.sentinel .invalidChallengeType) "unknown challenge type"),
          frames := [] } := by
      intro ch sol
      unfold validateAndRespond
      rw [if_neg h1, if_neg h2]
    cases coin <;>
    · unfold handleConnection kindOfCoin
      simp only [Bool.false_eq_true, if_true, if_false, ite_true, ite_false]
      rw [hs]

/-- Witness for the amended C1 at an unknown client tag. -/
theorem dispatch_follows_client_tag_witness :
    (handleConnection (fun _ _ => true) (fun _ _ => .ok true) "q" true (.ok [1]) (.ok [2])
      "Bogus\n".data "123\n".data).fault =
      some (SrvErr.wrapf "failed to validate and respond"
        (NewConnectionError "validateAndRespond" (.sentinel .invalidChallengeType)
          "unknown challenge type")) :=
  (dispatch_follows_client_tag (fun _ _ => true) (fun _ _ => .ok true) "q" true [1] [2]
    "Bogus\n".data "123\n".data).2 (by decide) (by decide)

/-- C5 counterexample: when challenge generation fails, the server does not
close silently — `handleConnection` hands the `ChallengeFailed` fault to
`handleError`, which writes an `ERROR` outcome frame to the client. -/
theorem challenge_failure_outcome_counterexample :
    (handleConnection (fun _ _ => true) (fun _ _ => .ok true) "q" true
      (.error (.sentinel (.other 0))) (.ok [2]) [] []).frames =
      [.line "ERROR:INTERNAL_ERROR:An internal error occurred\n"]
    ∧ ((handleConnection (fun _ _ => true) (fun _ _ => .ok true) "q" true
      (.error (.sentinel (.other 0))) (.ok [2]) [] []).frames.any isOutcomeFrame) = true := by
  refine ⟨by decide, by decide⟩

/-- C5 amended: if challenge generation fails, the session does end with a
`ChallengeFailed` fault and no challenge bytes are sent, but the server then
writes exactly one outcome frame — the `ERROR:INTERNAL_ERROR` response that
`handleError` produces from the fault — before the connection closes. -/
theorem challenge_generation_failure_writes_error
    (validateCPU : List Nat → List Nat → Bool)
    (validateMemory : List Nat → List Nat → Except SrvErr Bool)
    (quote : String) (coin : Bool) (e : SrvErr) (gen : Except SrvErr (List Nat))
    (typeLine solutionLine : List Char) :
    handleConnection validateCPU validateMemory quote coin
        (if coin = true then .error e else gen) (if coin = true then gen else .error e)
        typeLine solutionLine =
      { verifierUsed := none,
        fault := some (SrvErr.wrapf "failed to send challenge"
          (NewConnectionError "sendChallenge" (.sentinel .challengeFailed)
            (kindTag (kindOfCoin coin) ++ "-bound challenge generation failed"))),
        frames := [.line ("ERROR:INTERNAL_ERROR:An internal error occurred\n")] }
    ∧ errIs (SrvErr.wrapf "failed to send challenge"
        (NewConnectionError "sendChallenge" (.sentinel .challengeFailed)
          (kindTag (kindOfCoin coin) ++ "-bound challenge generation failed")))
        .challengeFailed = true := by
  cases coin <;> exact ⟨rfl, rfl⟩

/-- The sequential retry loop never runs more sessions than rounds left. -/
theorem startSeqFrom_count_le (sessions : Nat → Option CliErr) :
    ∀ (remaining : Nat) (lastErr : Option CliErr) (attempt : Nat),
      (startSeqFrom sessions lastErr attempt remaining).2 ≤ remaining
  | 0, _, _ => Nat.le_refl 0
  | remaining + 1, lastErr, attempt => by
    unfold startSeqFrom
    rcases hs : sessions attempt with _ | e
    · simp
    · exact Nat.succ_le_succ (startSeqFrom_count_le sessions remaining
        (some (NewClientError "Start" e "session failed")) (attempt + 1))

/-- The sequential retry loop returns `nil` right after the first success. -/
theorem startSeqFrom_stops_at_success (sessions : Nat → Option CliErr) :
    ∀ (remaining k attempt : Nat) (lastErr : Option CliErr),
      k < remaining → sessions (attempt + k) = none →
      (∀ j, j < k → sessions (attempt + j) ≠ none) →
      startSeqFrom sessions lastErr attempt remaining = (none, k + 1)
  | 0, k, _, _, hk, _, _ => absurd hk (Nat.not_lt_zero k)
  | remaining + 1, k, attempt, lastErr, hk, hks, hprev => by
    unfold startSeqFrom
    cases k with
    | zero =>
      have h0 : sessions attempt = none := by simpa using hks
      rw [h0]
    | succ k =>
      rcases hs : sessions attempt with _ | e
      · exact absurd hs (by simpa using hprev 0 (Nat.succ_pos k))
      have hrec := startSeqFrom_stops_at_success sessions remaining k (attempt + 1)
        (some (NewClientError "Start" e "session failed")) (by omega)
        (by rw [show attempt + 1 + k = attempt + (k + 1) from by omega]; exact hks)
        (fun j hj => by
          rw [show attempt + 1 + j = attempt + (j + 1) from by omega]
          exact hprev (j + 1) (by omega))
      simp [hrec]

/-- When every remaining session fails, the sequential retry loop runs them
all and returns the wrapped error of the last one. -/
theorem startSeqFrom_all_fail (sessions : Nat → Option CliErr) :
    ∀ (remaining attempt : Nat) (lastErr : Option CliErr),
      (∀ j, j < remaining → sessions (attempt + j) ≠ none) → 0 < remaining →
      ∃ e, sessions (attempt + remaining - 1) = some e ∧
        startSeqFrom sessions lastErr attempt remaining =
          (some (NewClientError "Start" e "session failed"), remaining)
  | 0, _, _, _, h0 => absurd h0 (by omega)
  | remaining + 1, attempt, lastErr, hfail, _ => by
    rcases hs : sessions attempt with _ | e0
    · exact absurd hs (by simpa using hfail 0 (by omega))
    unfold startSeqFrom
    cases remaining with
    | zero =>
      refine ⟨e0, by simpa using hs, ?_⟩
      simp [hs, startSeqFrom]
    | succ r =>
      have hrec := startSeqFrom_all_fail sessions (r + 1) (attempt + 1)
        (some (NewClientError "Start" e0 "session failed"))
        (fun j hj => by
          rw [show attempt + 1 + j = attempt + (j + 1) from by omega]
          exact hfail (j + 1) (by omega)) (by omega)
      rcases hrec with ⟨e, he, heq⟩
      refine ⟨e, ?_, ?_⟩
      · rw [show attempt + (r + 1 + 1) - 1 = attempt + 1 + (r + 1) - 1 from by omega]
        exact he
      · simp [hs, heq]

/-- The shared `lastErr` of the concurrent `Start` ends up `nil` exactly when
no completed session failed, whatever the completion order. -/
theorem concResult_none_iff (sessions : Nat → Option CliErr) :
    ∀ (order : List Nat) (acc : Option CliErr),
      (List.foldl (fun acc i =>
          match sessions i with
          | some e => some (NewClientError "Start" e "session failed")
          | none => acc) acc order = none)
        ↔ (acc = none ∧ ∀ i ∈ order, sessions i = none)
  | [], acc => by simp
  | i :: rest, acc => by
    rw [List.foldl_cons]
    rcases hs : sessions i with _ | e <;> simp only [hs]
    · rw [concResult_none_iff sessions rest acc]
      simp [hs]
    · rw [concResult_none_iff sessions rest (some (NewClientError "Start" e "session failed"))]
      simp [hs]

/-- C7 counterexample: with a configured retry count of 3, the current
`Start` still launches its hard-coded 10 attempts, and the returned error is
not `nil` even though attempt 0 succeeded — the loop neither respects the
configured count nor stops at the first success. -/
theorem clientStart_retry_counterexample :
    (clientStartConcAttempts 3).length = 10
    ∧ ¬ ((clientStartConcAttempts 3).length ≤ 3)
    ∧ clientStartConcResult
        (fun i => if i = 0 then none else some (.sentinel .invalidProtocol))
        (List.range maxConnections) ≠ none := by
  refine ⟨by decide, by decide, by decide⟩

/-- C7 amended: the current `Start` launches exactly the hard-coded
`maxConnections = 10` session attempts whatever the configured retry count,
waits for all of them, and returns `nil` exactly when no completed session
failed (one failure poisons the result even if another attempt succeeded);
the superseded sequential `Start` behaves as the claim stated: it runs at
most the configured number of sessions, returns `nil` immediately at the
first success having slept between consecutive attempts, and returns the
wrapped failure of the last attempt when every attempt fails. -/
theorem clientStart_retry_behaviour
    (retryAttempts : Nat) (sessions : Nat → Option CliErr) (order : List Nat) :
    (clientStartConcAttempts retryAttempts = List.range maxConnections
      ∧ (clientStartConcAttempts retryAttempts).length = 10)
    ∧ (clientStartConcResult sessions order = none ↔ ∀ i ∈ order, sessions i = none)
    ∧ (clientStartSeq retryAttempts sessions).2 ≤ retryAttempts
    ∧ (∀ k, k < retryAttempts → sessions k = none → (∀ j, j < k → sessions j ≠ none) →
        clientStartSeq retryAttempts sessions = (none, k + 1))
    ∧ ((∀ j, j < retryAttempts → sessions j ≠ none) → 0 < retryAttempts →
        ∃ e, sessions (retryAttempts - 1) = some e ∧
          clientStartSeq retryAttempts sessions =
            (some (NewClientError "Start" e "session failed"), retryAttempts)) := by
  refine ⟨⟨rfl, rfl⟩, ?_, ?_, ?_, ?_⟩
  · unfold clientStartConcResult
    rw [concResult_none_iff sessions order none]
    simp
  · exact startSeqFrom_count_le sessions retryAttempts none 0
  · intro k hk hks hprev
    exact startSeqFrom_stops_at_success sessions retryAttempts k 0 none hk
      (by simpa using hks) (fun j hj => by simpa using hprev j hj)
  · intro hfail hpos
    have := startSeqFrom_all_fail sessions retryAttempts 0 none
      (fun j hj => by simpa using hfail j hj) hpos
    simpa using this

/-- An `int64` configuration value in `[0, 2^31)` is unchanged by the
`int32` conversion at the length comparison. -/
theorem int32ofInt_of_small (x : Int) (h : 0 ≤ x ∧ x < 2147483648) :
    int32ofInt x = x := by
  show (if x % 4294967296 < 2147483648 then x % 4294967296
    else x % 4294967296 - 4294967296) = x
  have hx : x % 4294967296 = x := by omega
  rw [hx, if_pos h.2]

/-- C8: the client's challenge decoder rejects any kind byte other than
`0x00`/`0x01` with `InvalidChallengeType`; rejects a declared length that is
non-positive or exceeds the configured maximum with `InvalidMessageSize`,
before any buffer for the payload exists; and any challenge it does return
carries a payload of positive length bounded by the configured maximum. -/
theorem receiveChallenge_validates (maxMessageSize : Int) (input : List Nat)
    (hmax : 0 ≤ maxMessageSize ∧ maxMessageSize < 2147483648) :
    (∀ tb rest, input = tb :: rest → tb ≠ 0x00 → tb ≠ 0x01 →
      receiveChallenge maxMessageSize input =
        .error (NewClientError "receiveChallenge" (.sentinel .invalidChallengeType)
          "invalid challenge type"))
    ∧ (∀ tb b0 b1 b2 b3 rest2, input = tb :: b0 :: b1 :: b2 :: b3 :: rest2 →
        (tb = 0x00 ∨ tb = 0x01) →
        (int32ofBytes b0 b1 b2 b3 ≤ 0 ∨ int32ofBytes b0 b1 b2 b3 > maxMessageSize) →
        receiveChallenge maxMessageSize input =
          .error (NewClientError "receiveChallenge" (.sentinel .invalidMessageSize)
            "invalid challenge size"))
    ∧ (∀ ch, receiveChallenge maxMessageSize input = .ok ch →
        0 < ch.data.length ∧ (ch.data.length : Int) ≤ maxMessageSize) := by
  refine ⟨?_, ?_, ?_⟩
  · intro tb rest hin hne0 hne1
    subst hin
    unfold receiveChallenge
    simp only []
    rw [if_pos ⟨hne0, hne1⟩]
  · intro tb b0 b1 b2 b3 rest2 hin htb hbad
    subst hin
    unfold receiveChallenge
    simp only []
    rw [if_neg (by omega),
      if_pos (by rw [int32ofInt_of_small maxMessageSize hmax]; exact hbad)]
  · intro ch hok
    rcases input with _ | ⟨tb, rest⟩
    · have hval : receiveChallenge maxMessageSize [] =
          .error (NewClientError "receiveChallenge" (.sentinel (.ioError 0))
            "reading challengeType failed") := rfl
      rw [hval] at hok
      cases hok
    by_cases htb : tb ≠ 0x00 ∧ tb ≠ 0x01
    · have hval : receiveChallenge maxMessageSize (tb :: rest) =
          .error (NewClientError "receiveChallenge" (.sentinel .invalidChallengeType)
            "invalid challenge type") := by
        unfold receiveChallenge
        try (simp only [])
        rw [if_pos htb]
      rw [hval] at hok
      cases hok
    rcases rest with _ | ⟨b0, _ | ⟨b1, _ | ⟨b2, _ | ⟨b3, rest2⟩⟩⟩⟩
    · have hval : receiveChallenge maxMessageSize [tb] =
          .error (NewClientError "receiveChallenge" (.sentinel (.ioError 0))
            "reading length failed") := by
        unfold receiveChallenge
        try (simp only [])
        rw [if_neg htb]
      rw [hval] at hok
      cases hok
    · have hval : receiveChallenge maxMessageSize [tb, b0] =
          .error (NewClientError "receiveChallenge" (.sentinel (.ioError 0))
            "reading length failed") := by
        unfold receiveChallenge
        try (simp only [])
        rw [if_neg htb]
      rw [hval] at hok
      cases hok
    · have hval : receiveChallenge maxMessageSize [tb, b0, b1] =
          .error (NewClientError "receiveChallenge" (.sentinel (.ioError 0))
            "reading length failed") := by
        unfold receiveChallenge
        try (simp only [])
        rw [if_neg htb]
      rw [hval] at hok
      cases hok
    · have hval : receiveChallenge maxMessageSize [tb, b0, b1, b2] =
          .error (NewClientError "receiveChallenge" (.sentinel (.ioError 0))
            "reading length failed") := by
        unfold receiveChallenge
        try (simp only [])
        rw [if_neg htb]
      rw [hval] at hok
      cases hok
    by_cases hlen : int32ofBytes b0 b1 b2 b3 ≤ 0 ∨
        int32ofBytes b0 b1 b2 b3 > int32ofInt maxMessageSize
    · have hval : receiveChallenge maxMessageSize (tb :: b0 :: b1 :: b2 :: b3 :: rest2) =
          .error (NewClientError "receiveChallenge" (.sentinel .invalidMessageSize)
            "invalid challenge size") := by
        unfold receiveChallenge
        try (simp only [])
        rw [if_neg htb]
        try (simp only [])
        rw [if_pos hlen]
      rw [hval] at hok
      cases hok
    by_cases hfit : (int32ofBytes b0 b1 b2 b3).toNat ≤ rest2.length
    · have hval : receiveChallenge maxMessageSize (tb :: b0 :: b1 :: b2 :: b3 :: rest2) =
          .ok { data := rest2.take (int32ofBytes b0 b1 b2 b3).toNat,
                typeTag := if tb = 0x00 then "CPU" else "Memory" } := by
        unfold receiveChallenge
        try (simp only [])
        rw [if_neg htb]
        try (simp only [])
        rw [if_neg hlen]
        try (simp only [])
        rw [if_pos hfit]
      rw [hval] at hok
      cases hok
      push_neg at hlen
      rw [int32ofInt_of_small maxMessageSize hmax] at hlen
      simp only [List.length_take]
      constructor
      · omega
      · push_cast
        omega
    by_cases hempty : rest2 = []
    · have hval : receiveChallenge maxMessageSize (tb :: b0 :: b1 :: b2 :: b3 :: rest2) =
          .error (NewClientError "receiveChallenge" (.sentinel .connectionClosed)
            "unexpected EOF") := by
        unfold receiveChallenge
        try (simp only [])
        rw [if_neg htb]
        try (simp only [])
        rw [if_neg hlen]
        try (simp only [])
        rw [if_neg hfit, if_pos hempty]
      rw [hval] at hok
      cases hok
    · have hval : receiveChallenge maxMessageSize (tb :: b0 :: b1 :: b2 :: b3 :: rest2) =
          .error (NewClientError "receiveChallenge" (.sentinel (.ioError 1))
            "reading challenge failed") := by
        unfold receiveChallenge
        try (simp only [])
        rw [if_neg htb]
        try (simp only [])
        rw [if_neg hlen]
        try (simp only [])
        rw [if_neg hfit, if_neg hempty]
      rw [hval] at hok
      cases hok

/-- Witness for C8: with the configured maximum 1024, a kind byte `0x05` is
rejected as an invalid challenge type. -/
theorem receiveChallenge_validates_witness :
    receiveChallenge 1024 [5] =
      .error (NewClientError "receiveChallenge" (.sentinel .invalidChallengeType)
        "invalid challenge type") :=
  (receiveChallenge_validates 1024 [5] (by decide)).1 5 [] rfl (by decide) (by decide)
